import Mathlib

/-!
Verification of the DBS (Depth Below Surface) sentence decoder from
`src/sentences/dbs.rs`.

The Rust decoder is built from three nom combinators applied to the payload
string, in this exact order (see `do_parse_dbs`):
`opt(float)`, `char(',')`, `char('f')`, `opt(float)`, `char(',')`, `char('M')`,
`opt(float)`, `char(',')`, `char('F')`.

We embed the payload as a `List Char`, each combinator as a total Lean
function returning `Except Error (rest, value)` (the `?` conversion of nom
errors into the crate `Error` is folded into the combinators), and the f32
values produced by nom `float` as exact rationals computed from the decimal
literal (rounding a literal to the nearest f32 is abstracted away; the spec
itself only asks for equality within representation tolerance).  The grammar
recognised by nom `float` (optional sign, `digits [. digits]` or `. digits`,
optional exponent with mandatory digits) is modelled step by step below; the
`inf`, `infinity` and `nan` exceptional literals accepted by some nom
versions are not modelled, as no payload considered here starts a float in a
position where they could occur.
-/

namespace Nmea

/-- Modelled from the spec: the enumerated sentence-type tag compared for
equality against the expected tag of a decoder.  The full crate enum has many
more variants; only representatives are needed here, and the decoder treats
every variant other than `DBS` uniformly. -/
inductive SentenceType where
  | DBS
  | DBT
  | GGA
deriving DecidableEq

/-- Modelled from the spec and from the test module of `dbs.rs`: the input
structure handed to a sentence decoder, with the framing already stripped.
The checksum is a byte in the source; it is never read by `parse_dbs`. -/
structure NmeaSentence where
  talker_id : List Char
  message_id : SentenceType
  data : List Char
  checksum : Nat
deriving DecidableEq

/-- Modelled from the spec: the crate error type, restricted to the two
variants `parse_dbs` can produce.  `ParsingError` stands for the crate
variant wrapping a nom error and carries the unconsumed input at the point
of failure, as the nom error does. -/
inductive Error where
  | WrongSentenceHeader (expected found : SentenceType)
  | ParsingError (remaining : List Char)
deriving DecidableEq

/-- Output record of the DBS decoder (`DbsData` in `dbs.rs`); f32 values are
modelled as exact rationals. -/
structure DbsData where
  water_depth_feet : Option ℚ
  water_depth_meters : Option ℚ
  water_depth_fathoms : Option ℚ
deriving DecidableEq

/-- nom `character::complete::char(c)`: consumes exactly the character `c`
or fails, leaving the input at the failure point in the error. -/
def charP (c : Char) (i : List Char) : Except Error (List Char × Char) :=
  match i with
  | [] => .error (.ParsingError [])
  | x :: xs => if x = c then .ok (xs, c) else .error (.ParsingError (x :: xs))

/-- nom `combinator::opt(p)`: on failure of `p`, succeeds with `none` and
restores the input. -/
def optP {α : Type} (p : List Char → Except Error (List Char × α))
    (i : List Char) : Except Error (List Char × Option α) :=
  match p i with
  | .ok (r, v) => .ok (r, some v)
  | .error _ => .ok (i, none)

/-- Greedy run of decimal digits: returns the digits and the rest. -/
def takeDigits : List Char → List Char × List Char
  | [] => ([], [])
  | c :: cs =>
    if c.isDigit then
      (c :: (takeDigits cs).1, (takeDigits cs).2)
    else
      ([], c :: cs)

/-- Optional leading sign of a float literal; returns whether the literal is
negative and the rest ( `+` and no sign both yield `false`). -/
def parseSign (i : List Char) : Bool × List Char :=
  match i with
  | [] => (false, [])
  | c :: cs =>
    if c = '+' then (false, cs)
    else if c = '-' then (true, cs)
    else (false, c :: cs)

/-- Fractional part helper: a dot followed by a greedy (possibly empty) run
of digits, or nothing. -/
def dotFrac (r : List Char) : Option (List Char × List Char) :=
  match r with
  | [] => none
  | c :: rest => if c = '.' then some (takeDigits rest) else none

/-- Mantissa of the nom float grammar: `digit1 (. digit0)?` or `. digit1`.
Returns (integer digits, fraction digits, rest). -/
def mantissaP (i : List Char) : Option (List Char × List Char × List Char) :=
  let p := takeDigits i
  if p.1 = [] then
    match dotFrac i with
    | none => none
    | some (fs, r) => if fs = [] then none else some ([], fs, r)
  else
    match dotFrac p.2 with
    | none => some (p.1, [], p.2)
    | some (fs, r) => some (p.1, fs, r)

/-- Optional exponent of the nom float grammar: `(e|E) sign? digit1`;
absence (or missing digits) consumes nothing.  Returns (optional
(negative-exponent flag, exponent digits), rest). -/
def expP (i : List Char) : Option (Bool × List Char) × List Char :=
  match i with
  | [] => (none, [])
  | c :: rest =>
    if c = 'e' ∨ c = 'E' then
      let s := parseSign rest
      let q := takeDigits s.2
      if q.1 = [] then (none, c :: rest) else (some (s.1, q.1), q.2)
    else (none, c :: rest)

/-- Numeric value of a run of decimal digit characters. -/
def digitsToNat (ds : List Char) : Nat :=
  ds.foldl (fun a c => 10 * a + (c.toNat - 48)) 0

/-- Exact rational value of a decoded float literal given its sign, integer
digits, fraction digits and optional exponent: the mantissa reads
`ip.fp`, the sign negates it, and the exponent scales by a power of ten. -/
def litVal (neg : Bool) (ip fp : List Char) (ex : Option (Bool × List Char)) : ℚ :=
  let den : Nat := 10 ^ fp.length
  let mNum : Int := Int.ofNat (digitsToNat ip * den + digitsToNat fp)
  let sNum : Int := if neg then -mNum else mNum
  match ex with
  | none => mkRat sNum den
  | some (en, ds) =>
    if en then mkRat sNum (den * 10 ^ digitsToNat ds)
    else mkRat (sNum * Int.ofNat (10 ^ digitsToNat ds)) den

/-- nom `number::complete::float`: sign, mantissa, optional exponent, value
computed from the recognised literal. -/
def floatP (i : List Char) : Except Error (List Char × ℚ) :=
  match mantissaP (parseSign i).2 with
  | none => .error (.ParsingError i)
  | some (ip, fp, r) =>
    .ok ((expP r).2, litVal (parseSign i).1 ip fp (expP r).1)

/-- The field decoder `do_parse_dbs` of `dbs.rs`, combinator by combinator:
`opt(float)`, `char(',')`, `char('f')`, `opt(float)`, `char(',')`,
`char('M')`, `opt(float)`, `char(',')`, `char('F')`; each `?` propagates the
error, and the remaining input after the final unit character is dropped. -/
def do_parse_dbs (i0 : List Char) : Except Error DbsData :=
  match optP floatP i0 with
  | .error e => .error e
  | .ok (i1, water_depth_feet) =>
  match charP ',' i1 with
  | .error e => .error e
  | .ok (i2, _) =>
  match charP 'f' i2 with
  | .error e => .error e
  | .ok (i3, _) =>
  match optP floatP i3 with
  | .error e => .error e
  | .ok (i4, water_depth_meters) =>
  match charP ',' i4 with
  | .error e => .error e
  | .ok (i5, _) =>
  match charP 'M' i5 with
  | .error e => .error e
  | .ok (i6, _) =>
  match optP floatP i6 with
  | .error e => .error e
  | .ok (i7, water_depth_fathoms) =>
  match charP ',' i7 with
  | .error e => .error e
  | .ok (i8, _) =>
  match charP 'F' i8 with
  | .error e => .error e
  | .ok (_, _) =>
    .ok ⟨water_depth_feet, water_depth_meters, water_depth_fathoms⟩

/-- The sentence decoder `parse_dbs` of `dbs.rs`: header guard, then the
field decoder on the data payload. -/
def parse_dbs (sentence : NmeaSentence) : Except Error DbsData :=
  if sentence.message_id ≠ SentenceType.DBS then
    .error (.WrongSentenceHeader SentenceType.DBS sentence.message_id)
  else
    do_parse_dbs sentence.data

/-!
A syntactic description of the float literals accepted by the embedded nom
`float` grammar, used to quantify over all well-formed literals: sign
(`none` for no sign character, `some false` for `+`, `some true` for `-`),
integer digits, presence of the decimal dot, fraction digits, and optional
exponent (uppercase flag, sign, digits).
-/

structure FloatLit where
  sign : Option Bool
  ipart : List Char
  dot : Bool
  fpart : List Char
  exponent : Option (Bool × Option Bool × List Char)
deriving DecidableEq

/-- Characters of an optional sign. -/
def signRender : Option Bool → List Char
  | none => []
  | some false => ['+']
  | some true => ['-']

/-- A sign is negative exactly when it is the `-` character. -/
def isNegSign : Option Bool → Bool
  | some true => true
  | _ => false

/-- Characters of the mantissa: integer digits, then the dot and the
fraction digits when the dot is present. -/
def mantRender (ip : List Char) (dot : Bool) (fp : List Char) : List Char :=
  ip ++ (if dot then '.' :: fp else [])

/-- Well-formed mantissa shapes of the nom float grammar: digits with an
optional dotted fraction, or a dot followed by at least one digit. -/
def mantWf (ip : List Char) (dot : Bool) (fp : List Char) : Bool :=
  match dot with
  | true => !(ip.isEmpty && fp.isEmpty)
  | false => !ip.isEmpty && fp.isEmpty

/-- Characters of an optional exponent. -/
def expRender : Option (Bool × Option Bool × List Char) → List Char
  | none => []
  | some (u, sg, ds) => (if u then 'E' else 'e') :: (signRender sg ++ ds)

/-- A well-formed exponent has at least one digit and only digits. -/
def expWf : Option (Bool × Option Bool × List Char) → Bool
  | none => true
  | some (_, _, ds) => !ds.isEmpty && ds.all Char.isDigit

/-- Semantic content of an optional exponent: negativity flag and digits. -/
def expVal : Option (Bool × Option Bool × List Char) → Option (Bool × List Char)
  | none => none
  | some (_, sg, ds) => some (isNegSign sg, ds)

/-- The characters of a float literal. -/
def FloatLit.render (l : FloatLit) : List Char :=
  signRender l.sign ++ (mantRender l.ipart l.dot l.fpart ++ expRender l.exponent)

/-- Well-formedness of a float literal: digit runs are digits, the mantissa
has one of the two grammar shapes, the exponent is well formed. -/
def FloatLit.wf (l : FloatLit) : Bool :=
  l.ipart.all Char.isDigit && l.fpart.all Char.isDigit
    && mantWf l.ipart l.dot l.fpart && expWf l.exponent

/-- Exact rational value of a float literal. -/
def FloatLit.val (l : FloatLit) : ℚ :=
  litVal (isNegSign l.sign) l.ipart l.fpart (expVal l.exponent)

/-- Characters of an optional field token: empty when the field is absent. -/
def optTok : Option FloatLit → List Char
  | none => []
  | some l => l.render

/-- Decoded value of an optional field token. -/
def optVal : Option FloatLit → Option ℚ
  | none => none
  | some l => some l.val

/-- Well-formedness of an optional field token. -/
def optWf : Option FloatLit → Bool
  | none => true
  | some l => l.wf

/-- The head of the list, if any, is not a decimal digit. -/
def noDigitHead : List Char → Bool
  | [] => true
  | c :: _ => !c.isDigit

/-- The head of the list, if any, is not the decimal dot. -/
def noDotHead : List Char → Bool
  | [] => true
  | c :: _ => !(c == '.')

/-- The head of the list, if any, is not a sign character. -/
def noSignHead : List Char → Bool
  | [] => true
  | c :: _ => !(c == '+') && !(c == '-')

theorem noSignHead_digit (c : Char) (z : List Char) (h : c.isDigit = true) :
    noSignHead (c :: z) = true := by
  simp only [noSignHead, Bool.and_eq_true, Bool.not_eq_true', beq_eq_false_iff_ne, ne_eq]
  constructor <;> rintro rfl <;> exact absurd h (by decide)

theorem takeDigits_of_noDigitHead (r : List Char) (h : noDigitHead r = true) :
    takeDigits r = ([], r) := by
  cases r with
  | nil => rfl
  | cons c cs =>
    simp only [noDigitHead, Bool.not_eq_true'] at h
    simp [takeDigits, h]

theorem takeDigits_append (ds r : List Char) (hd : ds.all Char.isDigit = true)
    (h : noDigitHead r = true) : takeDigits (ds ++ r) = (ds, r) := by
  induction ds with
  | nil => simpa using takeDigits_of_noDigitHead r h
  | cons c cs ih =>
    simp only [List.all_cons, Bool.and_eq_true] at hd
    simp [takeDigits, hd.1, ih hd.2]

theorem parseSign_append (sg : Option Bool) (r : List Char) (h : noSignHead r = true) :
    parseSign (signRender sg ++ r) = (isNegSign sg, r) := by
  cases sg with
  | none =>
    cases r with
    | nil => rfl
    | cons c cs =>
      simp only [noSignHead, Bool.and_eq_true, Bool.not_eq_true', beq_eq_false_iff_ne, ne_eq] at h
      simp [signRender, parseSign, isNegSign, h.1, h.2]
  | some b => cases b <;> rfl

theorem mantissaP_append (ip : List Char) (dot : Bool) (fp r : List Char)
    (hip : ip.all Char.isDigit = true) (hfp : fp.all Char.isDigit = true)
    (hshape : mantWf ip dot fp = true)
    (hr1 : noDigitHead r = true) (hr2 : noDotHead r = true) :
    mantissaP (mantRender ip dot fp ++ r) = some (ip, fp, r) := by
  cases dot with
  | true =>
    cases ip with
    | nil =>
      cases fp with
      | nil => simp [mantWf] at hshape
      | cons d ds =>
        have ht1 : takeDigits ('.' :: (d :: (ds ++ r))) = ([], '.' :: (d :: (ds ++ r))) :=
          takeDigits_of_noDigitHead _ rfl
        have ht2 := takeDigits_append (d :: ds) r hfp hr1
        simp only [List.cons_append] at ht2
        simp [mantRender, mantissaP, dotFrac, ht1, ht2]
    | cons c cs =>
      have ht1 := takeDigits_append (c :: cs) ('.' :: (fp ++ r)) hip rfl
      simp only [List.cons_append] at ht1
      have ht2 := takeDigits_append fp r hfp hr1
      simp [mantRender, mantissaP, dotFrac, ht1, ht2]
  | false =>
    simp only [mantWf, Bool.and_eq_true, Bool.not_eq_true'] at hshape
    cases ip with
    | nil => simp [List.isEmpty] at hshape
    | cons c cs =>
      cases fp with
      | cons d ds => simp [List.isEmpty] at hshape
      | nil =>
        have ht1 := takeDigits_append (c :: cs) r hip hr1
        simp only [List.cons_append, List.append_nil] at ht1
        cases r with
        | nil =>
          simp only [List.append_nil] at ht1
          simp [mantRender, mantissaP, dotFrac, ht1]
        | cons x xs =>
          simp only [noDotHead, Bool.not_eq_true', beq_eq_false_iff_ne, ne_eq] at hr2
          simp [mantRender, mantissaP, dotFrac, ht1, hr2]

theorem expP_append (ex : Option (Bool × Option Bool × List Char)) (tail : List Char)
    (h : expWf ex = true) :
    expP (expRender ex ++ ',' :: tail) = (expVal ex, ',' :: tail) := by
  cases ex with
  | none => rfl
  | some t =>
    obtain ⟨u, sg, ds⟩ := t
    simp only [expWf, Bool.and_eq_true, Bool.not_eq_true'] at h
    obtain ⟨hne, hall⟩ := h
    cases ds with
    | nil => simp [List.isEmpty] at hne
    | cons d dtl =>
      have hd : d.isDigit = true := by
        simp only [List.all_cons, Bool.and_eq_true] at hall
        exact hall.1
      have hsg : parseSign (signRender sg ++ (d :: (dtl ++ ',' :: tail)))
          = (isNegSign sg, d :: (dtl ++ ',' :: tail)) :=
        parseSign_append sg _ (noSignHead_digit d _ hd)
      have ht := takeDigits_append (d :: dtl) (',' :: tail) hall rfl
      simp only [List.cons_append] at ht
      cases u <;>
        simp [expRender, expP, expVal, List.cons_append, List.append_assoc, hsg, ht]

theorem floatP_append (l : FloatLit) (tail : List Char) (h : l.wf = true) :
    floatP (l.render ++ ',' :: tail) = .ok (',' :: tail, l.val) := by
  obtain ⟨sg, ip, dot, fp, ex⟩ := l
  simp only [FloatLit.wf, Bool.and_eq_true] at h
  obtain ⟨⟨⟨hip, hfp⟩, hshape⟩, hex⟩ := h
  have hassoc : FloatLit.render ⟨sg, ip, dot, fp, ex⟩ ++ ',' :: tail
      = signRender sg ++ (mantRender ip dot fp ++ (expRender ex ++ ',' :: tail)) := by
    simp [FloatLit.render, List.append_assoc]
  have hns : noSignHead (mantRender ip dot fp ++ (expRender ex ++ ',' :: tail)) = true := by
    cases ip with
    | cons c cs =>
      have hd : c.isDigit = true := by
        simp only [List.all_cons, Bool.and_eq_true] at hip
        exact hip.1
      have : mantRender (c :: cs) dot fp ++ (expRender ex ++ ',' :: tail)
          = c :: (cs ++ ((if dot then '.' :: fp else []) ++ (expRender ex ++ ',' :: tail))) := by
        simp [mantRender]
      rw [this]
      exact noSignHead_digit c _ hd
    | nil =>
      cases dot with
      | false => simp [mantWf, List.isEmpty] at hshape
      | true =>
        have : mantRender [] true fp ++ (expRender ex ++ ',' :: tail)
            = '.' :: (fp ++ (expRender ex ++ ',' :: tail)) := by
          simp [mantRender]
        rw [this]
        rfl
  have hmr1 : noDigitHead (expRender ex ++ ',' :: tail) = true := by
    cases ex with
    | none => rfl
    | some t => obtain ⟨u, sg2, ds⟩ := t; cases u <;> rfl
  have hmr2 : noDotHead (expRender ex ++ ',' :: tail) = true := by
    cases ex with
    | none => rfl
    | some t => obtain ⟨u, sg2, ds⟩ := t; cases u <;> rfl
  rw [hassoc]
  have h1 := parseSign_append sg _ hns
  simp only [floatP, h1]
  rw [mantissaP_append ip dot fp _ hip hfp hshape hmr1 hmr2]
  simp only [expP_append ex tail hex]
  simp [FloatLit.val]

theorem optP_floatP_tok (v : Option FloatLit) (tail : List Char) (h : optWf v = true) :
    optP floatP (optTok v ++ ',' :: tail) = .ok (',' :: tail, optVal v) := by
  cases v with
  | none =>
    show optP floatP (',' :: tail) = .ok (',' :: tail, none)
    rfl
  | some l =>
    show optP floatP (l.render ++ ',' :: tail) = .ok (',' :: tail, some l.val)
    have hw : l.wf = true := h
    simp [optP, floatP_append l tail hw]

theorem charP_eq (c : Char) (r : List Char) : charP c (c :: r) = .ok (r, c) := by
  simp [charP]

theorem charP_ne (x c : Char) (r : List Char) (h : ¬x = c) :
    charP c (x :: r) = .error (.ParsingError (x :: r)) := by
  simp [charP, h]

/-- The grammar the field decoder accepts: an optional float, a comma and
`f`, then immediately an optional float, a comma and `M`, then immediately
an optional float, a comma and `F`; anything after the final `F` is left
untouched.  Decoding yields exactly the values of the present literals. -/
theorem do_parse_dbs_shape (v1 v2 v3 : Option FloatLit) (rest : List Char)
    (h1 : optWf v1 = true) (h2 : optWf v2 = true) (h3 : optWf v3 = true) :
    do_parse_dbs (optTok v1 ++ ',' :: 'f' ::
        (optTok v2 ++ ',' :: 'M' :: (optTok v3 ++ ',' :: 'F' :: rest)))
      = .ok ⟨optVal v1, optVal v2, optVal v3⟩ := by
  have o1 := optP_floatP_tok v1
    ('f' :: (optTok v2 ++ ',' :: 'M' :: (optTok v3 ++ ',' :: 'F' :: rest))) h1
  have o2 := optP_floatP_tok v2 ('M' :: (optTok v3 ++ ',' :: 'F' :: rest)) h2
  have o3 := optP_floatP_tok v3 ('F' :: rest) h3
  simp only [do_parse_dbs, o1, o2, o3, charP_eq]

/-- Sample literal `7.8`. -/
def lit78 : FloatLit := ⟨none, ['7'], true, ['8'], none⟩

/-- Sample literal `1.3`. -/
def lit13 : FloatLit := ⟨none, ['1'], true, ['3'], none⟩

/-- Sample literal `-1.5`. -/
def litNeg15 : FloatLit := ⟨some true, ['1'], true, ['5'], none⟩

/-- Claim C1: the spec (and the doc comment and test of `dbs.rs`) say that a
DBS sentence with payload `7.8,f,2.4,M,1.3,F` decodes to the record with
feet 7.8, meters 2.4 and fathoms 1.3.  The code instead fails: after `f` it
consumes no comma, so the comma before `2.4` is taken as the field
separator and `char('M')` then meets the digit `2`.  This theorem records
the failing evaluation. -/
theorem parse_dbs_canonical_example_rejected :
    parse_dbs ⟨"SD".toList, SentenceType.DBS, "7.8,f,2.4,M,1.3,F".toList, 0⟩
      = .error (.ParsingError "2.4,M,1.3,F".toList) := by rfl

/-- Claim C2: the spec (and the doc comment of `dbs.rs`) say the payload
`,f,22.5,M,,F` decodes to the record with feet None, meters 22.5 and
fathoms None.  The code instead fails at `char('M')` against the digit `2`,
for the same missing-comma reason as in C1.  This theorem records the
failing evaluation. -/
theorem do_parse_dbs_empty_fields_example_rejected :
    do_parse_dbs ",f,22.5,M,,F".toList
      = .error (.ParsingError "22.5,M,,F".toList) := by rfl

/-- Claim C3: the grammar `do_parse_dbs` actually accepts takes no
separator after a unit character: every input of the shape
optional-float, comma, `f`, optional-float, comma, `M`, optional-float,
comma, `F`, arbitrary rest decodes successfully, with `some` of the
literal value exactly for the fields whose float literal is present. -/
theorem do_parse_dbs_accepts_unit_adjacent_grammar (v1 v2 v3 : Option FloatLit)
    (rest : List Char)
    (h1 : optWf v1 = true) (h2 : optWf v2 = true) (h3 : optWf v3 = true) :
    do_parse_dbs (optTok v1 ++ ',' :: 'f' ::
        (optTok v2 ++ ',' :: 'M' :: (optTok v3 ++ ',' :: 'F' :: rest)))
      = .ok ⟨optVal v1, optVal v2, optVal v3⟩ :=
  do_parse_dbs_shape v1 v2 v3 rest h1 h2 h3

/-- Witness for C3: the payload `7.8,f,M1.3,F` (first field present, second
absent, third present, no separator after the unit characters) decodes to
feet 7.8, meters None, fathoms 1.3. -/
theorem do_parse_dbs_accepts_unit_adjacent_grammar_witness :
    do_parse_dbs (optTok (some lit78) ++ ',' :: 'f' ::
        (optTok none ++ ',' :: 'M' :: (optTok (some lit13) ++ ',' :: 'F' :: [])))
      = .ok ⟨optVal (some lit78), optVal none, optVal (some lit13)⟩ :=
  do_parse_dbs_accepts_unit_adjacent_grammar (some lit78) none (some lit13) []
    (by decide) (by decide) (by decide)

/-- Claim C4: for every sentence whose message tag differs from DBS,
`parse_dbs` fails immediately with `WrongSentenceHeader` carrying expected
DBS and the actual tag, whatever the payload holds; the equation holds for
every payload, so the payload is never parsed. -/
theorem parse_dbs_wrong_header (s : NmeaSentence)
    (h : s.message_id ≠ SentenceType.DBS) :
    parse_dbs s = .error (.WrongSentenceHeader SentenceType.DBS s.message_id) := by
  simp [parse_dbs, h]

/-- Witness for C4: a DBT-tagged sentence is rejected with the header error
naming DBS as expected and DBT as found. -/
theorem parse_dbs_wrong_header_witness :
    parse_dbs ⟨"SD".toList, SentenceType.DBT, "7.8,f,2.4,M,1.3,F".toList, 13⟩
      = .error (.WrongSentenceHeader SentenceType.DBS SentenceType.DBT) :=
  parse_dbs_wrong_header
    ⟨"SD".toList, SentenceType.DBT, "7.8,f,2.4,M,1.3,F".toList, 13⟩ (by decide)

/-- Claim C5: a payload in which the unit character expected at some
position (`f`, `M` or `F`) is wrong or missing makes decoding fail with a
parse error; no record is ever returned.  The three conjuncts place the
wrong character `c` at each of the three unit positions of the accepted
grammar. -/
theorem do_parse_dbs_unit_literal_mismatch_fails (v1 v2 v3 : Option FloatLit)
    (c : Char) (rest : List Char)
    (h1 : optWf v1 = true) (h2 : optWf v2 = true) (h3 : optWf v3 = true) :
    (c ≠ 'f' → ∃ rem, do_parse_dbs (optTok v1 ++ ',' :: c :: rest)
        = .error (.ParsingError rem))
    ∧ (c ≠ 'M' → ∃ rem, do_parse_dbs (optTok v1 ++ ',' :: 'f' ::
        (optTok v2 ++ ',' :: c :: rest)) = .error (.ParsingError rem))
    ∧ (c ≠ 'F' → ∃ rem, do_parse_dbs (optTok v1 ++ ',' :: 'f' ::
        (optTok v2 ++ ',' :: 'M' :: (optTok v3 ++ ',' :: c :: rest)))
        = .error (.ParsingError rem)) := by
  refine ⟨?_, ?_, ?_⟩
  · intro hc
    have o1 := optP_floatP_tok v1 (c :: rest) h1
    refine ⟨c :: rest, ?_⟩
    simp only [do_parse_dbs, o1, charP_eq, charP_ne c 'f' rest hc]
  · intro hc
    have o1 := optP_floatP_tok v1 ('f' :: (optTok v2 ++ ',' :: c :: rest)) h1
    have o2 := optP_floatP_tok v2 (c :: rest) h2
    refine ⟨c :: rest, ?_⟩
    simp only [do_parse_dbs, o1, o2, charP_eq, charP_ne c 'M' rest hc]
  · intro hc
    have o1 := optP_floatP_tok v1
      ('f' :: (optTok v2 ++ ',' :: 'M' :: (optTok v3 ++ ',' :: c :: rest))) h1
    have o2 := optP_floatP_tok v2 ('M' :: (optTok v3 ++ ',' :: c :: rest)) h2
    have o3 := optP_floatP_tok v3 (c :: rest) h3
    refine ⟨c :: rest, ?_⟩
    simp only [do_parse_dbs, o1, o2, o3, charP_eq, charP_ne c 'F' rest hc]

/-- Witness for C5: with `x` in place of the unit character `f` (payload
`7.8,x`), decoding fails with a parse error. -/
theorem do_parse_dbs_unit_literal_mismatch_fails_witness :
    ∃ rem, do_parse_dbs (optTok (some lit78) ++ ',' :: 'x' :: [])
      = .error (.ParsingError rem) :=
  (do_parse_dbs_unit_literal_mismatch_fails (some lit78) none none 'x' []
    (by decide) (by decide) (by decide)).1 (by decide)

/-- Claim C6: the spec says trailing content after the third unit character
is ignored, so the payload `7.8,f,2.4,M,1.3,F,A` should decode exactly like
`7.8,f,2.4,M,1.3,F`.  The code rejects both (see C1): it never reaches the
third unit.  This theorem records the failing evaluation on the payload
with the trailing field. -/
theorem do_parse_dbs_trailing_example_rejected :
    do_parse_dbs "7.8,f,2.4,M,1.3,F,A".toList
      = .error (.ParsingError "2.4,M,1.3,F,A".toList) := by rfl

/-- Claim C7: for every input sentence, `parse_dbs` terminates and returns
a value of the result type, either a record or an error; the embedding is a
total function, so no input can make it crash. -/
theorem parse_dbs_total (s : NmeaSentence) :
    (∃ r, parse_dbs s = .ok r) ∨ (∃ e, parse_dbs s = .error e) := by
  cases h : parse_dbs s with
  | ok r => exact Or.inl ⟨r, rfl⟩
  | error e => exact Or.inr ⟨e, rfl⟩

/-- Claim C8: values are not range- or sign-checked: a payload of the
accepted grammar whose three literals all have negative values decodes
successfully and the negative values appear unchanged in the record. -/
theorem do_parse_dbs_negative_values_pass_through (v1 v2 v3 : FloatLit)
    (rest : List Char)
    (h1 : v1.wf = true) (h2 : v2.wf = true) (h3 : v3.wf = true)
    (n1 : v1.val < 0) (n2 : v2.val < 0) (n3 : v3.val < 0) :
    do_parse_dbs (v1.render ++ ',' :: 'f' ::
        (v2.render ++ ',' :: 'M' :: (v3.render ++ ',' :: 'F' :: rest)))
      = .ok ⟨some v1.val, some v2.val, some v3.val⟩
    ∧ v1.val < 0 ∧ v2.val < 0 ∧ v3.val < 0 := by
  refine ⟨?_, n1, n2, n3⟩
  exact do_parse_dbs_shape (some v1) (some v2) (some v3) rest h1 h2 h3

/-- Witness for C8: the payload `-1.5,f-1.5,M-1.5,F` decodes to three
negative values. -/
theorem do_parse_dbs_negative_values_pass_through_witness :
    do_parse_dbs (litNeg15.render ++ ',' :: 'f' ::
        (litNeg15.render ++ ',' :: 'M' :: (litNeg15.render ++ ',' :: 'F' :: [])))
      = .ok ⟨some litNeg15.val, some litNeg15.val, some litNeg15.val⟩
    ∧ litNeg15.val < 0 ∧ litNeg15.val < 0 ∧ litNeg15.val < 0 :=
  do_parse_dbs_negative_values_pass_through litNeg15 litNeg15 litNeg15 []
    (by decide) (by decide) (by decide) (by decide) (by decide) (by decide)

/-- Claim C9: decoding is deterministic: `parse_dbs` is a pure function, so
equal inputs give equal results. -/
theorem parse_dbs_deterministic (s1 s2 : NmeaSentence) (h : s1 = s2) :
    parse_dbs s1 = parse_dbs s2 :=
  congrArg parse_dbs h

/-- Witness for C9 at a concrete sentence. -/
theorem parse_dbs_deterministic_witness :
    parse_dbs ⟨"SD".toList, SentenceType.DBS, ",f22.5,M,F".toList, 0⟩
      = parse_dbs ⟨"SD".toList, SentenceType.DBS, ",f22.5,M,F".toList, 0⟩ :=
  parse_dbs_deterministic _ _ rfl

/-- Claim C10: when the tag is DBS, the result depends only on the data
payload: two DBS sentences with equal data fields decode identically,
whatever their talker id and checksum. -/
theorem parse_dbs_depends_only_on_data (s1 s2 : NmeaSentence)
    (h1 : s1.message_id = SentenceType.DBS) (h2 : s2.message_id = SentenceType.DBS)
    (hd : s1.data = s2.data) :
    parse_dbs s1 = parse_dbs s2 := by
  simp [parse_dbs, h1, h2, hd]

/-- Witness for C10: two sentences differing in talker id and checksum but
with the same DBS tag and data decode identically. -/
theorem parse_dbs_depends_only_on_data_witness :
    parse_dbs ⟨"SD".toList, SentenceType.DBS, "7.8,f2.4,M1.3,F".toList, 0⟩
      = parse_dbs ⟨"GP".toList, SentenceType.DBS, "7.8,f2.4,M1.3,F".toList, 255⟩ :=
  parse_dbs_depends_only_on_data _ _ rfl rfl rfl

end Nmea
